import Mathlib

/-!
Shallow embedding of `logutil` (`src/logutil/__init__.py`): the
`make_handler` sink factory, the `TimedRotatingLogger` /
`TimedRotatingMemoryLogger` rotation logic, and the `_MemoryHandler`
buffered sink built on `logging.handlers.MemoryHandler`.

Conventions of the embedding:
* time (`time.time()`) is passed explicitly as a `Nat` argument `now`;
* a Python exception escaping a call is an `Option` `none`; functions whose
  Python counterparts swallow every exception are total;
* the stdlib collaborators (`logging.FileHandler.handle`,
  `logging.handlers.MemoryHandler.shouldFlush`, `MemoryHandler.close`) are
  embedded by their documented CPython 2.7 behaviour: `Handler.handle`
  routes an `emit` failure to `handleError`, which never re-raises, so a
  per-record write failure is recorded but does not propagate;
* thread interleavings are linearized: the per-sink background workers are
  sequential and non-overlapping, so a worker's write is applied as one
  step (`joinFlusher`) between the operations of the producing thread.
-/

namespace Logutil

/-- A `logging.LogRecord` as the handlers consume it: the numeric severity
`levelno`, an identifying message, and `emitOk`, which models whether the
direct file sink's `emit` succeeds for this record. -/
structure Record where
  levelno : Nat
  msg : Nat
  emitOk : Bool
deriving Repr, DecidableEq

/-- Severity constants of the `logging` module. -/
def DEBUG : Nat := 10

/-- The constant `logging.INFO`. -/
def INFO : Nat := 20

/-- The constant `logging.ERROR`. -/
def ERROR : Nat := 40

/-- The direct file sink (`logging.FileHandler`): the installed line-format
string, the messages whose write succeeded (the lines of the file), and all
messages whose write was attempted through `handle`. -/
structure FileTarget where
  fmt : String
  written : List Nat
  attempted : List Nat
deriving Repr, DecidableEq

/-- Embedding of `logging.FileHandler.handle(record)`: the write is attempted for every
record handed in; on success the line is appended to the file; an `emit`
failure is routed to `handleError`, which never re-raises. -/
def FileTarget.handle (t : FileTarget) (r : Record) : FileTarget :=
  { t with
    attempted := t.attempted ++ [r.msg]
    written := t.written ++ (if r.emitOk then [r.msg] else []) }

/-- The messages of the records of `l` whose write succeeds. -/
def msgsOk (l : List Record) : List Nat :=
  (l.filter (fun r => r.emitOk)).map Record.msg

/-- State of a `_MemoryHandler`: `capacity` and `flushLevel` from the
`MemoryHandler` base, the private `__flushInterval` and `__lastFlushTime`,
the record buffer, the wrapped direct target, the batch handed to the
latest `__flusher` worker that has not yet completed, the batches already
written by completed workers (the observable history of background writes),
and whether `MemoryHandler.close` has detached the target. -/
structure MemState where
  capacity : Nat
  flushLevel : Nat
  flushInterval : Nat
  lastFlushTime : Nat
  buffer : List Record
  target : FileTarget
  pending : Option (List Record)
  delivered : List (List Record)
  targetDetached : Bool
deriving Repr, DecidableEq

/-- Embedding of `logging.handlers.MemoryHandler.shouldFlush(record)` (CPython 2.7):
`len(self.buffer) >= self.capacity or record.levelno >= self.flushLevel`. -/
def baseShouldFlush (s : MemState) (r : Record) : Bool :=
  (s.capacity ≤ s.buffer.length) || (s.flushLevel ≤ r.levelno)

/-- Embedding of `_MemoryHandler.shouldFlush(record)` at time `now`: the base-class test,
or `time.time() - self.__lastFlushTime > self.__flushInterval`, or
`record.levelno >= self.flushLevel`. -/
def MemState.shouldFlush (s : MemState) (r : Record) (now : Nat) : Bool :=
  baseShouldFlush s r || (s.flushInterval < now - s.lastFlushTime)
    || (s.flushLevel ≤ r.levelno)

/-- The loop body of `_MemoryHandler.__flush(target, buffered)` run by the
worker thread: hand every captured record to the target, in order.
`target.handle` never raises (see `FileTarget.handle`), so the loop always
reaches the end of the batch. -/
def runFlusher (t : FileTarget) (buffered : List Record) : FileTarget :=
  buffered.foldl FileTarget.handle t

/-- Completion of the in-flight `__flusher` worker, observed at time `now`:
its batch has been written record by record via `__flush`, and
`self.__lastFlushTime = time.time()` has run.  A no-op when no worker is in
flight. -/
def MemState.joinFlusher (s : MemState) (now : Nat) : MemState :=
  match s.pending with
  | none => s
  | some batch =>
      { s with
        target := runFlusher s.target batch
        lastFlushTime := now
        pending := none
        delivered := s.delivered ++ [batch] }

/-- The body of `_MemoryHandler.flush()` itself (the worker's write is a
separate execution, `runFlusher`): swap out the buffer, hand it to a fresh
`__flusher` thread, and rendezvous.  When the handoff fails (`ok = false`,
any exception while launching the worker), the `except` clause restores the
swapped-out buffer (`self.buffer = buffered`) and swallows the exception,
so the net state change is none. -/
def MemState.handoff (s : MemState) (ok : Bool) : MemState :=
  if ok then { s with buffer := [], pending := some s.buffer } else s

/-- Embedding of `_MemoryHandler.flush()` at time `now`.  The per-sink workers are
sequential and non-overlapping, so the previous worker (if still recorded as
in flight) has completed by the time the new handoff is observed; then the
swap-and-handoff of the calling thread runs. -/
def MemState.flush (s : MemState) (now : Nat) (ok : Bool) : MemState :=
  (s.joinFlusher now).handoff ok

/-- Embedding of `logging.handlers.BufferingHandler.emit(record)` as inherited by
`_MemoryHandler`: append the record to the buffer, then flush if
`shouldFlush(record)`. -/
def MemState.emit (s : MemState) (r : Record) (now : Nat) (ok : Bool) : MemState :=
  let s1 := { s with buffer := s.buffer ++ [r] }
  if s1.shouldFlush r now then s1.flush now ok else s1

/-- Embedding of `_MemoryHandler.close()`: a final `self.flush()` (handoff success
`ok1`), then `self.__flusher.join()`, then `MemoryHandler.close(self)`,
which performs one more `self.flush()` (handoff success `ok2`) and detaches
the target.  The worker spawned by that last flush also runs to completion
before the final state is observed. -/
def MemState.close (s : MemState) (now : Nat) (ok1 ok2 : Bool) : MemState :=
  let s1 := s.flush now ok1
  let s2 := s1.joinFlusher now
  let s3 := s2.flush now ok2
  let s4 := s3.joinFlusher now
  { s4 with targetDetached := true }

/-- A fresh `_MemoryHandler` built at time `now` over a fresh file target
with format string `fmt`: empty buffer, `__lastFlushTime = time.time()`,
no worker in flight. -/
def initMem (capacity flushLevel flushInterval now : Nat) (fmt : String) : MemState :=
  { capacity := capacity
    flushLevel := flushLevel
    flushInterval := flushInterval
    lastFlushTime := now
    buffer := []
    target := ⟨fmt, [], []⟩
    pending := none
    delivered := []
    targetDetached := false }

/-- Handling a whole sequence of records at time `now`, every handoff
succeeding. -/
def processAll (s : MemState) (rs : List Record) (now : Nat) : MemState :=
  rs.foldl (fun s r => s.emit r now true) s

/-- A sink produced by `make_handler`: either a direct `logging.FileHandler`
carrying its installed format string, or a `_MemoryHandler` with its
capacity, flush level, flush interval and wrapped target.  Path resolution
(`os.path.abspath`) and directory creation are filesystem effects outside
the model; paths are carried verbatim. -/
inductive Handler where
  | file (filename : String) (fmt : String)
  | memory (filename : String) (capacity flushLevel flushInterval : Nat)
      (target : Handler)
deriving Repr, DecidableEq

/-- The keyword-argument dictionaries threaded between the logger
constructors, `make_handler` and `_MemoryHandler` (`**kwargs` /
`**verbose`): a field is `some v` when the keyword is present. -/
structure Kwargs where
  capacity : Option Nat
  format : Option String
  flushLevel : Option Nat
  flushInterval : Option Nat
deriving Repr, DecidableEq

/-- The module-level default format string `logRecordFmt`. -/
def logRecordFmt : String :=
  "[%(levelname)s][%(asctime)s] at %(module)s.py:%(lineno)s - %(message)s"

/-- Embedding of `make_handler(filename, capacity=1, format=logRecordFmt,
**verbose)`.  Python binds the `capacity` and `format` keywords to the
named parameters; the remaining keywords form `**verbose`.  With
`capacity > 1` a `_MemoryHandler` is built from `filename`, `capacity` and
`**verbose` alone — the `format` binding is not part of `verbose` and is
not forwarded.  `_MemoryHandler.__init__(filename, capacity, flushLevel,
flushInterval, target=None, **kwargs)` has no defaults for `flushLevel` and
`flushInterval`, so their absence raises a `TypeError` (`none` here); its
default target is the recursive call `make_handler(filename, capacity=1,
**kwargs)` on the leftover kwargs, which contain no `format` key.  With
`capacity <= 1`, the parent directory is ensured (a filesystem effect) and
a `FileHandler` on `filename` is built and given `Formatter(format)`. -/
def make_handler (filename : String) (kw : Kwargs) : Option Handler :=
  if h : 1 < kw.capacity.getD 1 then
    match kw.flushLevel, kw.flushInterval with
    | some fl, some fi =>
        (make_handler filename ⟨some 1, none, none, none⟩).map
          (Handler.memory filename (kw.capacity.getD 1) fl fi)
    | _, _ => none
  else
    some (Handler.file filename (kw.format.getD logRecordFmt))
termination_by kw.capacity.getD 1
decreasing_by simpa using h

/-- Lifecycle events of the handlers attached to a rotating logger, in
program order: `opened h` when `addHandler` attaches `h`; `closedEv h` when
`h.close()` is called on it; `droppedUnclosed h` when `h` is removed from
`self.handlers` without a prior `close()`. -/
inductive Ev where
  | opened (h : Handler)
  | closedEv (h : Handler)
  | droppedUnclosed (h : Handler)
deriving Repr, DecidableEq

/-- State of a `TimedRotatingLogger` / `TimedRotatingMemoryLogger`:
`_baseFilename`, `_suffixFmt`, the cached `_suffix`, `_handlerParams`, the
`handlers` list, and the recorded lifecycle events. -/
structure LoggerState where
  baseFilename : String
  suffixFmt : String
  suffix : String
  handlerParams : Kwargs
  handlers : List Handler
  events : List Ev
deriving Repr, DecidableEq

/-- Embedding of `TimedRotatingLogger.rotate_handler()`: under `_rLock`,
close every attached handler, reset `self.handlers` to a new list, build a
handler for `_baseFilename + "." + _suffix` from `_handlerParams`, and
attach it.  `none` when `make_handler` raises. -/
def rotate_handler (s : LoggerState) : Option LoggerState :=
  (make_handler (s.baseFilename ++ "." ++ s.suffix) s.handlerParams).map
    fun h =>
      { s with
        handlers := [h]
        events := s.events ++ s.handlers.map Ev.closedEv ++ [Ev.opened h] }

/-- The handler attached by `SimpleLogger.__init__`:
`make_handler(filename, format=format)` — only the `format` keyword of the
incoming kwargs is forwarded to the factory. -/
def SimpleLogger.initHandler (filename : String) (kw : Kwargs) :
    Option Handler :=
  make_handler filename ⟨none, kw.format, none, none⟩

/-- Embedding of `TimedRotatingLogger.__init__(filename, suffixFmt,
**kwargs)` with `time.strftime(suffixFmt) = suffixNow` throughout:
`SimpleLogger.__init__` attaches a first handler for the suffixed filename;
the constructor then rebinds `self.handlers` to a fresh empty list —
discarding that handler without closing it — stores `kwargs` as
`_handlerParams`, and calls `rotate_handler()`. -/
def TimedRotatingLogger.init (filename suffixFmt suffixNow : String)
    (kw : Kwargs) : Option LoggerState :=
  (SimpleLogger.initHandler (filename ++ "." ++ suffixNow) kw).bind fun h0 =>
    rotate_handler
      { baseFilename := filename
        suffixFmt := suffixFmt
        suffix := suffixNow
        handlerParams := kw
        handlers := []
        events := [Ev.opened h0, Ev.droppedUnclosed h0] }

/-- Embedding of `TimedRotatingMemoryLogger.__init__(filename,
capacity=100, flushInterval=120, flushLevel=logging.ERROR, **kwargs)`: the
whole `TimedRotatingLogger.__init__` runs first on `**kwargs` alone —
including the first `rotate_handler()` with `_handlerParams = kwargs` — and
only afterwards does `self._handlerParams.update(...)` merge `capacity`,
`flushInterval` and `flushLevel` into `_handlerParams`. -/
def TimedRotatingMemoryLogger.init (filename suffixFmt suffixNow : String)
    (capacity flushInterval flushLevel : Nat) (kw : Kwargs) :
    Option LoggerState :=
  (TimedRotatingLogger.init filename suffixFmt suffixNow kw).map fun s =>
    { s with
      handlerParams :=
        { s.handlerParams with
          capacity := some capacity
          flushInterval := some flushInterval
          flushLevel := some flushLevel } }

/-- An action of one producer thread inside `TimedRotatingLogger.handle` at
a suffix boundary: `check i` is thread `i`'s unlocked pre-check
`self._suffix != time.strftime(self._suffixFmt)`; `locked i` is its
`_rLock`-protected critical section (re-check, update `_suffix`, call
`rotate_handler()`), one atomic step because the reentrant lock serializes
the whole region. -/
inductive HAct where
  | check (i : Nat)
  | locked (i : Nat)
deriving Repr, DecidableEq

/-- Shared state of the racing producer threads: the logger (holding
`_suffix` and `handlers`), the count of `rotate_handler()` executions, and
each thread's private result of its pre-check (false for a thread whose
pre-check has not run or failed — such a thread never takes the lock). -/
structure RaceState where
  logger : LoggerState
  rotations : Nat
  flags : Nat → Bool

/-- The critical-section body once the re-check has passed: line 134 sets
`self._suffix`, line 135 calls `rotate_handler()`.  Should the factory
raise inside `rotate_handler`, the suffix update has already happened; the
handler list is then left as it was, which does not affect the rotation
count. -/
def doRotate (newSuffix : String) (s : LoggerState) : LoggerState :=
  let s1 := { s with suffix := newSuffix }
  (rotate_handler s1).getD s1

/-- One interleaving step at the boundary instant (`time.strftime` returns
`newSuffix` for every thread throughout the race window). -/
def raceStep (newSuffix : String) (s : RaceState) (a : HAct) : RaceState :=
  match a with
  | .check i =>
      { s with
        flags := fun j =>
          if j = i then decide (s.logger.suffix ≠ newSuffix) else s.flags j }
  | .locked i =>
      if s.flags i then
        if s.logger.suffix ≠ newSuffix then
          { s with
            logger := doRotate newSuffix s.logger
            rotations := s.rotations + 1 }
        else s
      else s

/-- A schedule of thread actions executed in order. -/
def raceRun (newSuffix : String) (s : RaceState) (l : List HAct) : RaceState :=
  l.foldl (raceStep newSuffix) s

/-- The reachable configurations during a boundary race that started from
suffix `oldS`: either nothing has rotated and the cached suffix is still
stale, or exactly one rotation has happened and the suffix is `newS`. -/
def RaceInv (oldS newS : String) (s : RaceState) : Prop :=
  (s.rotations = 0 ∧ s.logger.suffix = oldS)
    ∨ (s.rotations = 1 ∧ s.logger.suffix = newS)

theorem msgsOk_cons (r : Record) (l : List Record) :
    msgsOk (r :: l) = (if r.emitOk then [r.msg] else []) ++ msgsOk l := by
  simp only [msgsOk, List.filter_cons]
  by_cases h : r.emitOk <;> simp [h]

theorem msgsOk_append (l₁ l₂ : List Record) :
    msgsOk (l₁ ++ l₂) = msgsOk l₁ ++ msgsOk l₂ := by
  simp [msgsOk, List.filter_append]

theorem msgsOk_nil : msgsOk [] = [] := rfl

theorem runFlusher_attempted (l : List Record) :
    ∀ t : FileTarget, (runFlusher t l).attempted = t.attempted ++ l.map Record.msg := by
  induction l with
  | nil => intro t; simp [runFlusher]
  | cons r l ih =>
      intro t
      have h1 : runFlusher t (r :: l) = runFlusher (t.handle r) l := rfl
      rw [h1, ih]
      simp [FileTarget.handle]

theorem runFlusher_written (l : List Record) :
    ∀ t : FileTarget, (runFlusher t l).written = t.written ++ msgsOk l := by
  induction l with
  | nil => intro t; simp [runFlusher, msgsOk_nil]
  | cons r l ih =>
      intro t
      have h1 : runFlusher t (r :: l) = runFlusher (t.handle r) l := rfl
      rw [h1, ih, msgsOk_cons]
      by_cases h : r.emitOk <;> simp [FileTarget.handle, h]

theorem runFlusher_fmt (l : List Record) :
    ∀ t : FileTarget, (runFlusher t l).fmt = t.fmt := by
  induction l with
  | nil => intro t; rfl
  | cons r l ih =>
      intro t
      have h1 : runFlusher t (r :: l) = runFlusher (t.handle r) l := rfl
      rw [h1, ih]
      rfl

/-- C2: for every buffered sink and record, `shouldFlush(record)` returns
true if and only if the buffered count has reached the capacity, or the
elapsed time since `__lastFlushTime` strictly exceeds `__flushInterval`, or
the record's level is at least the flush level threshold. -/
theorem c2_shouldFlush_iff (s : MemState) (r : Record) (now : Nat) :
    s.shouldFlush r now = true ↔
      (s.capacity ≤ s.buffer.length ∨ s.flushInterval < now - s.lastFlushTime
        ∨ s.flushLevel ≤ r.levelno) := by
  simp only [MemState.shouldFlush, baseShouldFlush, Bool.or_eq_true,
    decide_eq_true_eq]
  tauto

/-- C4: in the background write of a flushed batch (`__flush`), every record
of the captured batch is attempted independently of the success of the
earlier writes: the attempted list always gains the whole batch, while the
file gains exactly the records whose write succeeded.  The write loop is a
total function — a per-record failure is swallowed inside the target's
`handle`, and nothing propagates from the batch. -/
theorem c4_batch_writes_independent (t : FileTarget) (batch : List Record) :
    (runFlusher t batch).attempted = t.attempted ++ batch.map Record.msg ∧
      (runFlusher t batch).written = t.written ++ msgsOk batch :=
  ⟨runFlusher_attempted batch t, runFlusher_written batch t⟩

/-- C5: when launching the background flush worker fails (`ok = false`), the
`except` clause of `flush()` restores the swapped-out buffer, so the buffer
the caller observes is exactly the buffer before the call — no buffered
record is lost — and `flush` returns a state rather than raising. -/
theorem c5_handoff_failure_restores_buffer (s : MemState) (now : Nat) :
    (s.flush now false).buffer = s.buffer := by
  unfold MemState.flush MemState.handoff MemState.joinFlusher
  cases h : s.pending <;> simp

/-- Full effect of `close()` on the happy path: buffer drained, no worker
in flight, target detached, the in-flight batch and then the buffered
records handed to the target, and the batch history extended by the
in-flight batch, the final buffer, and the empty batch of the extra flush
performed by `MemoryHandler.close`. -/
theorem close_effect (s : MemState) (now : Nat) :
    (s.close now true true).buffer = []
      ∧ (s.close now true true).pending = none
      ∧ (s.close now true true).targetDetached = true
      ∧ (s.close now true true).target.attempted
          = s.target.attempted ++ (s.pending.getD []).map Record.msg
              ++ s.buffer.map Record.msg
      ∧ (s.close now true true).target.written
          = s.target.written ++ msgsOk (s.pending.getD []) ++ msgsOk s.buffer
      ∧ (s.close now true true).delivered
          = s.delivered ++ s.pending.toList ++ [s.buffer] ++ [[]] := by
  unfold MemState.close MemState.flush MemState.handoff MemState.joinFlusher
  cases h : s.pending <;>
    simp [runFlusher_attempted, runFlusher_written, msgsOk_nil, msgsOk_append]

/-- C3: `close()` leaves an empty buffer, no worker in flight, and a
detached target that has been handed — before the detachment — every record
that was in the in-flight batch or in the buffer when `close` was called;
the records whose write succeeds are appended to the file in that order. -/
theorem c3_close_delivers_all_buffered (s : MemState) (now : Nat) :
    ((s.close now true true).buffer = [] ∧ (s.close now true true).pending = none
        ∧ (s.close now true true).targetDetached = true)
      ∧ (s.close now true true).target.attempted
          = s.target.attempted ++ (s.pending.getD []).map Record.msg
              ++ s.buffer.map Record.msg
      ∧ (s.close now true true).target.written
          = s.target.written ++ msgsOk (s.pending.getD []) ++ msgsOk s.buffer := by
  obtain ⟨h1, h2, h3, h4, h5, _⟩ := close_effect s now
  exact ⟨⟨h1, h2, h3⟩, h4, h5⟩

/-- C10: `__lastFlushTime` is untouched by the body of `flush()` itself
(the swap-and-handoff, on success as well as on a failed handoff), and is
set to the completion time by the background worker only after every record
of the captured batch — including records whose individual write fails —
has been handed to the target. -/
theorem c10_lastFlushTime_worker_only (s : MemState) (now : Nat)
    (batch : List Record) (h : s.pending = some batch) :
    (∀ ok : Bool, (s.handoff ok).lastFlushTime = s.lastFlushTime)
      ∧ (s.joinFlusher now).lastFlushTime = now
      ∧ (s.joinFlusher now).target.attempted
          = s.target.attempted ++ batch.map Record.msg := by
  refine ⟨fun ok => ?_, ?_, ?_⟩
  · unfold MemState.handoff; cases ok <;> simp
  · unfold MemState.joinFlusher; rw [h]
  · unfold MemState.joinFlusher; rw [h]; exact runFlusher_attempted batch s.target

/-- Witness for C10: a concrete handler state with an in-flight batch of two
records, the first of which fails to write. -/
theorem c10_lastFlushTime_worker_only_witness :
    (∀ ok : Bool,
        (({ initMem 3 40 120 5 "fmt" with
              pending := some [⟨20, 0, false⟩, ⟨20, 1, true⟩] }).handoff ok).lastFlushTime
          = ({ initMem 3 40 120 5 "fmt" with
                pending := some [⟨20, 0, false⟩, ⟨20, 1, true⟩] } : MemState).lastFlushTime)
      ∧ (({ initMem 3 40 120 5 "fmt" with
              pending := some [⟨20, 0, false⟩, ⟨20, 1, true⟩] }).joinFlusher 9).lastFlushTime = 9
      ∧ (({ initMem 3 40 120 5 "fmt" with
              pending := some [⟨20, 0, false⟩, ⟨20, 1, true⟩] }).joinFlusher 9).target.attempted
          = ({ initMem 3 40 120 5 "fmt" with
                pending := some [⟨20, 0, false⟩, ⟨20, 1, true⟩] } : MemState).target.attempted
              ++ [⟨20, 0, false⟩, ⟨20, 1, true⟩].map Record.msg :=
  c10_lastFlushTime_worker_only
    { initMem 3 40 120 5 "fmt" with pending := some [⟨20, 0, false⟩, ⟨20, 1, true⟩] }
    9 [⟨20, 0, false⟩, ⟨20, 1, true⟩] rfl

theorem ceil_small (n C : Nat) (hC : 1 ≤ C) (h : n < C) :
    (n + C - 1) / C = if n = 0 then 0 else 1 := by
  rcases Nat.eq_zero_or_pos n with h0 | h0
  · subst h0
    simp [Nat.div_eq_of_lt (by omega : C - 1 < C)]
  · rw [if_neg (by omega)]
    have hlo : 1 * C ≤ n + C - 1 := by omega
    exact Nat.div_eq_of_lt_le hlo (by omega)

theorem joinFlusher_eq (C L I now : Nat) (b : List Record) (t : FileTarget)
    (pend : Option (List Record)) (d : List (List Record)) (td : Bool) :
    MemState.joinFlusher ⟨C, L, I, now, b, t, pend, d, td⟩ now
      = ⟨C, L, I, now, b, runFlusher t (pend.getD []), none, d ++ pend.toList, td⟩ := by
  cases pend <;> simp [MemState.joinFlusher, runFlusher]

/-- One `emit` step of a `_MemoryHandler` whose clock stands at the time of
the last flush, on a record below the flush level: the severity and
staleness triggers are off, so a flush happens exactly when the appended
buffer has reached capacity. -/
theorem emit_eq_of_quiet (C L I now : Nat) (b : List Record) (t : FileTarget)
    (pend : Option (List Record)) (d : List (List Record)) (td : Bool)
    (r : Record) (hr : r.levelno < L) :
    MemState.emit ⟨C, L, I, now, b, t, pend, d, td⟩ r now true
      = if C ≤ b.length + 1 then
          ⟨C, L, I, now, [], runFlusher t (pend.getD []), some (b ++ [r]),
            d ++ pend.toList, td⟩
        else ⟨C, L, I, now, b ++ [r], t, pend, d, td⟩ := by
  have h1 : ¬ (L ≤ r.levelno) := Nat.not_le.mpr hr
  unfold MemState.emit MemState.shouldFlush baseShouldFlush MemState.flush
  by_cases hc : C ≤ b.length + 1
  · simp [hc, h1, Nat.sub_self, joinFlusher_eq, MemState.handoff]
  · simp [hc, h1, Nat.sub_self]

theorem filter_toList_len (pend : Option (List Record)) (d : List (List Record)) :
    ((d ++ pend.toList).filter (fun c => !c.isEmpty)).length
      = (d.filter (fun c => !c.isEmpty)).length
        + (if (pend.getD []).isEmpty then 0 else 1) := by
  cases pend with
  | none => simp
  | some q =>
      by_cases hq : q = [] <;>
        simp [hq, List.filter_append, List.isEmpty_iff]

/-- Round-trip invariant: starting from a `_MemoryHandler` state whose
clock stands at the last flush time, handling a sequence of records below
the flush level and then closing delivers one nonempty batch per started
chunk of `capacity` records (counting the generalized starting buffer and
in-flight batch), and appends the successfully written messages to the
target file in arrival order. -/
theorem processAll_close_spec (C L I : Nat) (hC : 1 ≤ C) :
    ∀ (rs : List Record) (now : Nat) (b : List Record)
      (pend : Option (List Record)) (d : List (List Record)) (t : FileTarget)
      (td : Bool), b.length < C → (∀ r ∈ rs, r.levelno < L) →
      ((((processAll ⟨C, L, I, now, b, t, pend, d, td⟩ rs now).close now
              true true).delivered.filter (fun c => !c.isEmpty)).length
          = (d.filter (fun c => !c.isEmpty)).length
            + (if (pend.getD []).isEmpty then 0 else 1)
            + (b.length + rs.length + C - 1) / C)
        ∧ ((processAll ⟨C, L, I, now, b, t, pend, d, td⟩ rs now).close now
              true true).target.written
            = t.written ++ msgsOk (pend.getD []) ++ msgsOk b ++ msgsOk rs := by
  intro rs
  induction rs with
  | nil =>
      intro now b pend d t td hb _
      obtain ⟨-, -, -, -, h5, h6⟩ :=
        close_effect ⟨C, L, I, now, b, t, pend, d, td⟩ now
      have hpA : processAll ⟨C, L, I, now, b, t, pend, d, td⟩ [] now
          = ⟨C, L, I, now, b, t, pend, d, td⟩ := rfl
      rw [hpA] at *
      constructor
      · rw [h6]
        have hceil : (b.length + List.length ([] : List Record) + C - 1) / C
            = if b.length = 0 then 0 else 1 := by
          simpa using ceil_small b.length C hC hb
        rw [hceil]
        rw [show d ++ pend.toList ++ [b] ++ [[]]
            = (d ++ pend.toList) ++ ([b] ++ [[]]) by simp]
        rw [List.filter_append, List.length_append, filter_toList_len]
        by_cases hbn : b = [] <;> simp [hbn, List.isEmpty_iff]
      · rw [h5]
        simp [msgsOk_nil]
  | cons r rs ih =>
      intro now b pend d t td hb hlev
      have hr : r.levelno < L := hlev r (by simp)
      have hrs : ∀ x ∈ rs, x.levelno < L := fun x hx => hlev x (by simp [hx])
      have hstep : processAll ⟨C, L, I, now, b, t, pend, d, td⟩ (r :: rs) now
          = processAll (MemState.emit ⟨C, L, I, now, b, t, pend, d, td⟩ r now true)
              rs now := rfl
      rw [hstep, emit_eq_of_quiet C L I now b t pend d td r hr]
      by_cases hc : C ≤ b.length + 1
      · rw [if_pos hc]
        have hbc : b.length + 1 = C := by omega
        obtain ⟨ihc, ihw⟩ := ih now [] (some (b ++ [r])) (d ++ pend.toList)
          (runFlusher t (pend.getD [])) td (by simpa using hC) hrs
        constructor
        · rw [ihc, filter_toList_len]
          have hnum : b.length + (r :: rs).length + C - 1
              = (List.length ([] : List Record) + rs.length + C - 1) + C := by
            simp; omega
          rw [hnum, Nat.add_div_right _ (by omega : 0 < C)]
          simp
          omega
        · rw [ihw, runFlusher_written]
          simp [msgsOk_append, msgsOk_cons, msgsOk_nil]
      · rw [if_neg hc]
        obtain ⟨ihc, ihw⟩ := ih now (b ++ [r]) pend d t td (by simp; omega) hrs
        constructor
        · rw [ihc]
          have hnum : (b ++ [r]).length + rs.length + C - 1
              = b.length + (r :: rs).length + C - 1 := by
            simp; omega
          rw [hnum]
        · rw [ihw]
          simp [msgsOk_append, msgsOk_cons, msgsOk_nil]

theorem msgsOk_eq_map (l : List Record) (h : ∀ r ∈ l, r.emitOk = true) :
    msgsOk l = l.map Record.msg := by
  unfold msgsOk
  rw [List.filter_eq_self.mpr (by simpa using h)]

/-- C8: a run of `N` records, each below the flush level, through a fresh
buffered sink of capacity `C ≥ 1` whose staleness trigger never fires (the
clock stands at the construction instant throughout), followed by the
closing flush: exactly `⌈N / C⌉` nonempty batches are handed to the target,
and all `N` records appear in the target file in the order they were
handled. -/
theorem c8_batches_and_order (C L I now : Nat) (fmt : String)
    (rs : List Record) (hC : 1 ≤ C) (hlev : ∀ r ∈ rs, r.levelno < L)
    (hok : ∀ r ∈ rs, r.emitOk = true) :
    ((((processAll (initMem C L I now fmt) rs now).close now true
          true).delivered.filter (fun c => !c.isEmpty)).length
        = (rs.length + C - 1) / C)
      ∧ ((processAll (initMem C L I now fmt) rs now).close now true
            true).target.written = rs.map Record.msg := by
  obtain ⟨h1, h2⟩ := processAll_close_spec C L I hC rs now [] none []
    ⟨fmt, [], []⟩ false (by simpa using hC) hlev
  have hinit : initMem C L I now fmt
      = (⟨C, L, I, now, [], ⟨fmt, [], []⟩, none, [], false⟩ : MemState) := rfl
  rw [hinit]
  constructor
  · rw [h1]; simp
  · rw [h2, msgsOk_eq_map rs hok]
    simp [msgsOk_nil]

/-- Witness for C8: three INFO-level records through a sink of capacity 2
produce two nonempty batches and the file lines 0, 1, 2 in order. -/
theorem c8_batches_and_order_witness :
    ((((processAll (initMem 2 40 120 0 "f")
            [⟨20, 0, true⟩, ⟨20, 1, true⟩, ⟨20, 2, true⟩] 0).close 0 true
          true).delivered.filter (fun c => !c.isEmpty)).length = 2)
      ∧ ((processAll (initMem 2 40 120 0 "f")
            [⟨20, 0, true⟩, ⟨20, 1, true⟩, ⟨20, 2, true⟩] 0).close 0 true
            true).target.written = [0, 1, 2] := by
  have h := c8_batches_and_order 2 40 120 0 "f"
    [⟨20, 0, true⟩, ⟨20, 1, true⟩, ⟨20, 2, true⟩] (by omega) (by decide)
    (by decide)
  exact ⟨h.1, h.2⟩

theorem make_handler_direct (filename : String) (kw : Kwargs)
    (h : kw.capacity.getD 1 ≤ 1) :
    make_handler filename kw
      = some (Handler.file filename (kw.format.getD logRecordFmt)) := by
  unfold make_handler
  rw [dif_neg (by omega)]

theorem make_handler_buffered (filename : String) (kw : Kwargs)
    (c fl fi : Nat) (hcap : kw.capacity = some c) (hc : 1 < c)
    (hfl : kw.flushLevel = some fl) (hfi : kw.flushInterval = some fi) :
    make_handler filename kw
      = (make_handler filename ⟨some 1, none, none, none⟩).map
          (Handler.memory filename c fl fi) := by
  unfold make_handler
  rw [dif_pos (by rw [hcap]; simpa using hc)]
  rw [hfl, hfi, hcap]
  simp only [Option.getD_some]
  rw [dif_neg (by omega : ¬ (1 : Nat) < 1),
    make_handler_direct filename ⟨some 1, none, none, none⟩ (by simp)]

theorem make_handler_capacity_one (filename : String) :
    make_handler filename ⟨some 1, none, none, none⟩
      = some (Handler.file filename logRecordFmt) := by
  rw [make_handler_direct]
  · rfl
  · simp

/-- Counterexample to C7: with capacity 5 and an explicit format string,
the buffered path drops the caller's format — it is bound to the factory's
named `format` parameter, excluded from `**verbose`, and never reaches the
recursive call — so the direct target sink is built with the DEFAULT format
string, not the supplied one. -/
theorem c7_outer_format_not_threaded :
    make_handler "app.log" ⟨some 5, some "[%(message)s]", some 40, some 120⟩
        = some (Handler.memory "app.log" 5 40 120
            (Handler.file "app.log" logRecordFmt))
      ∧ logRecordFmt ≠ "[%(message)s]" := by
  constructor
  · rw [make_handler_buffered _ _ 5 40 120 rfl (by omega) rfl rfl,
      make_handler_capacity_one]
    rfl
  · decide

/-- C7, amended: for every call to `make_handler` with a present
`capacity > 1` and present `flushLevel` and `flushInterval`, the result is
a `_MemoryHandler` whose target is the recursive `capacity = 1` call on the
same path, and that recursive call builds the direct file sink with the
DEFAULT format string — the outer `format` option is not threaded through
the recursion. -/
theorem c7_buffered_target_uses_default_format (filename : String)
    (kw : Kwargs) (c fl fi : Nat) (hcap : kw.capacity = some c)
    (hc : 1 < c) (hfl : kw.flushLevel = some fl)
    (hfi : kw.flushInterval = some fi) :
    make_handler filename kw
        = (make_handler filename ⟨some 1, none, none, none⟩).map
            (Handler.memory filename c fl fi)
      ∧ make_handler filename ⟨some 1, none, none, none⟩
          = some (Handler.file filename logRecordFmt) :=
  ⟨make_handler_buffered filename kw c fl fi hcap hc hfl hfi,
    make_handler_capacity_one filename⟩

/-- Witness for the amended C7: a concrete buffered-factory call, with a
non-default format supplied, resolves to a memory handler over a
default-formatted file sink. -/
theorem c7_buffered_target_uses_default_format_witness :
    make_handler "w.log" ⟨some 3, some "[%(message)s]", some 40, some 120⟩
        = (make_handler "w.log" ⟨some 1, none, none, none⟩).map
            (Handler.memory "w.log" 3 40 120)
      ∧ make_handler "w.log" ⟨some 1, none, none, none⟩
          = some (Handler.file "w.log" logRecordFmt) :=
  c7_buffered_target_uses_default_format "w.log"
    ⟨some 3, some "[%(message)s]", some 40, some 120⟩ 3 40 120 rfl
    (by omega) rfl rfl

/-- C6, amended: every call to `rotate_handler` that completes closes each
currently attached sink — a `closedEv` event is recorded for every handler
of the replaced list, in order — before the new handler is attached; only
the construction-time reset of `self.handlers` discards a handler without
closing it. -/
theorem c6_rotation_closes_before_drop (s s' : LoggerState)
    (h : rotate_handler s = some s') :
    ∃ hnew, s'.handlers = [hnew]
      ∧ s'.events = s.events ++ s.handlers.map Ev.closedEv
          ++ [Ev.opened hnew] := by
  unfold rotate_handler at h
  rcases Option.map_eq_some'.mp h with ⟨hn, -, rfl⟩
  exact ⟨hn, rfl, rfl⟩

/-- Witness for the amended C6: rotating a logger that holds one attached
file handler records its close event before the open event of the new
handler. -/
theorem c6_rotation_closes_before_drop_witness :
    ∃ hnew,
      (⟨"app.log", "%Y-%m-%d", "2024-01-02", ⟨none, none, none, none⟩,
          [Handler.file "app.log.2024-01-02" logRecordFmt],
          [Ev.closedEv (Handler.file "app.log.2024-01-01" logRecordFmt),
            Ev.opened (Handler.file "app.log.2024-01-02" logRecordFmt)]⟩
          : LoggerState).handlers = [hnew]
      ∧ (⟨"app.log", "%Y-%m-%d", "2024-01-02", ⟨none, none, none, none⟩,
          [Handler.file "app.log.2024-01-02" logRecordFmt],
          [Ev.closedEv (Handler.file "app.log.2024-01-01" logRecordFmt),
            Ev.opened (Handler.file "app.log.2024-01-02" logRecordFmt)]⟩
          : LoggerState).events
        = (⟨"app.log", "%Y-%m-%d", "2024-01-02", ⟨none, none, none, none⟩,
            [Handler.file "app.log.2024-01-01" logRecordFmt], []⟩
            : LoggerState).events
          ++ (⟨"app.log", "%Y-%m-%d", "2024-01-02", ⟨none, none, none, none⟩,
              [Handler.file "app.log.2024-01-01" logRecordFmt], []⟩
              : LoggerState).handlers.map Ev.closedEv
          ++ [Ev.opened hnew] := by
  apply c6_rotation_closes_before_drop
  unfold rotate_handler
  rw [make_handler_direct _ _ (by simp)]
  rfl

/-- Counterexample to C6: at logger construction, the handler attached by
`SimpleLogger.__init__` is discarded by the `self.handlers = list()` reset
without ever being closed. -/
theorem c6_construction_drops_handler_unclosed :
    ∃ s, TimedRotatingLogger.init "app.log" "%Y-%m-%d" "2024-01-01"
          ⟨none, none, none, none⟩ = some s
      ∧ Ev.droppedUnclosed (Handler.file "app.log.2024-01-01" logRecordFmt)
          ∈ s.events
      ∧ Ev.closedEv (Handler.file "app.log.2024-01-01" logRecordFmt)
          ∉ s.events := by
  have e1 : make_handler ("app.log" ++ "." ++ "2024-01-01")
      (⟨none, none, none, none⟩ : Kwargs)
      = some (Handler.file "app.log.2024-01-01" logRecordFmt) := by
    rw [make_handler_direct _ _ (by simp)]
    rfl
  refine ⟨⟨"app.log", "%Y-%m-%d", "2024-01-01", ⟨none, none, none, none⟩,
      [Handler.file "app.log.2024-01-01" logRecordFmt],
      [Ev.opened (Handler.file "app.log.2024-01-01" logRecordFmt),
        Ev.droppedUnclosed (Handler.file "app.log.2024-01-01" logRecordFmt),
        Ev.opened (Handler.file "app.log.2024-01-01" logRecordFmt)]⟩,
    ?_, by decide, by decide⟩
  unfold TimedRotatingLogger.init SimpleLogger.initHandler rotate_handler
  rw [e1]
  simp only [Option.bind_some]
  rw [e1]
  rfl

/-- C1 (against the code): with the default parameters, the buffering
parameters are merged into `_handlerParams` only after the superclass
constructor has already performed the first rotation, so the sink attached
at construction is a direct `FileHandler` built with the default format;
the first subsequent `rotate_handler()` call — after the suffix changes —
is the first to attach a `_MemoryHandler`. -/
theorem c1_construction_sink_is_unbuffered :
    ∃ s, TimedRotatingMemoryLogger.init "app.log" "%Y-%m-%d" "2024-01-01"
          100 120 40 ⟨none, none, none, none⟩ = some s
      ∧ s.handlers = [Handler.file "app.log.2024-01-01" logRecordFmt]
      ∧ s.handlerParams = ⟨some 100, none, some 40, some 120⟩
      ∧ rotate_handler { s with suffix := "2024-01-02" }
          = some { s with
              suffix := "2024-01-02"
              handlers := [Handler.memory "app.log.2024-01-02" 100 40 120
                (Handler.file "app.log.2024-01-02" logRecordFmt)]
              events := s.events
                ++ [Ev.closedEv (Handler.file "app.log.2024-01-01" logRecordFmt),
                  Ev.opened (Handler.memory "app.log.2024-01-02" 100 40 120
                    (Handler.file "app.log.2024-01-02" logRecordFmt))] } := by
  have e1 : make_handler ("app.log" ++ "." ++ "2024-01-01")
      (⟨none, none, none, none⟩ : Kwargs)
      = some (Handler.file "app.log.2024-01-01" logRecordFmt) := by
    rw [make_handler_direct _ _ (by simp)]
    rfl
  refine ⟨⟨"app.log", "%Y-%m-%d", "2024-01-01",
      ⟨some 100, none, some 40, some 120⟩,
      [Handler.file "app.log.2024-01-01" logRecordFmt],
      [Ev.opened (Handler.file "app.log.2024-01-01" logRecordFmt),
        Ev.droppedUnclosed (Handler.file "app.log.2024-01-01" logRecordFmt),
        Ev.opened (Handler.file "app.log.2024-01-01" logRecordFmt)]⟩,
    ?_, rfl, rfl, ?_⟩
  · unfold TimedRotatingMemoryLogger.init TimedRotatingLogger.init
      SimpleLogger.initHandler rotate_handler
    rw [e1]
    simp only [Option.bind_some]
    rw [e1]
    rfl
  · unfold rotate_handler
    rw [make_handler_buffered _ _ 100 40 120 rfl (by omega) rfl rfl,
      make_handler_capacity_one]
    rfl

theorem raceStep_check_eq (newS : String) (s : RaceState) (i : Nat) :
    raceStep newS s (HAct.check i)
      = { s with
          flags := fun j =>
            if j = i then decide (s.logger.suffix ≠ newS) else s.flags j } :=
  rfl

theorem raceStep_locked_eq (newS : String) (s : RaceState) (i : Nat) :
    raceStep newS s (HAct.locked i)
      = if s.flags i then
          if s.logger.suffix ≠ newS then
            { s with
              logger := doRotate newS s.logger
              rotations := s.rotations + 1 }
          else s
        else s :=
  rfl

theorem doRotate_suffix (newS : String) (lg : LoggerState) :
    (doRotate newS lg).suffix = newS := by
  unfold doRotate rotate_handler
  cases h : make_handler (lg.baseFilename ++ "." ++ newS) lg.handlerParams <;>
    simp [h]

theorem raceStep_inv (oldS newS : String) (s : RaceState) (a : HAct)
    (h : RaceInv oldS newS s) : RaceInv oldS newS (raceStep newS s a) := by
  cases a with
  | check i => exact h
  | locked i =>
      rw [raceStep_locked_eq]
      by_cases hf : s.flags i
      · rw [if_pos hf]
        by_cases hs : s.logger.suffix = newS
        · rw [if_neg (by simpa using hs)]
          exact h
        · rw [if_pos (by simpa using hs)]
          rcases h with ⟨h0, hsuf⟩ | ⟨h1, hsuf⟩
          · exact Or.inr ⟨by simp [h0], by simp [doRotate_suffix]⟩
          · exact absurd hsuf hs
      · rw [if_neg hf]
        exact h

theorem raceRun_inv (oldS newS : String) (l : List HAct) :
    ∀ s : RaceState, RaceInv oldS newS s
      → RaceInv oldS newS (raceRun newS s l) := by
  induction l with
  | nil => intro s h; exact h
  | cons a l ih =>
      intro s h
      exact ih (raceStep newS s a) (raceStep_inv oldS newS s a h)

theorem raceStep_stable (newS : String) (s : RaceState) (a : HAct)
    (h1 : s.rotations = 1) (h2 : s.logger.suffix = newS) :
    (raceStep newS s a).rotations = 1
      ∧ (raceStep newS s a).logger.suffix = newS := by
  cases a with
  | check i => exact ⟨h1, h2⟩
  | locked i =>
      rw [raceStep_locked_eq]
      by_cases hf : s.flags i
      · rw [if_pos hf, if_neg (by simpa using h2)]
        exact ⟨h1, h2⟩
      · rw [if_neg hf]
        exact ⟨h1, h2⟩

theorem raceRun_stable (newS : String) (l : List HAct) :
    ∀ s : RaceState, s.rotations = 1 → s.logger.suffix = newS
      → (raceRun newS s l).rotations = 1 := by
  induction l with
  | nil => intro s h1 _; exact h1
  | cons a l ih =>
      intro s h1 h2
      obtain ⟨g1, g2⟩ := raceStep_stable newS s a h1 h2
      exact ih (raceStep newS s a) g1 g2

theorem raceRun_flags (newS : String) (t : Nat) (l : List HAct)
    (hnot : HAct.check t ∉ l) :
    ∀ s : RaceState, (raceRun newS s l).flags t = s.flags t := by
  induction l with
  | nil => intro s; rfl
  | cons a l ih =>
      intro s
      have hnl : HAct.check t ∉ l := fun hl => hnot (List.mem_cons_of_mem a hl)
      have hstep : (raceStep newS s a).flags t = s.flags t := by
        cases a with
        | check i =>
            have hne : t ≠ i := by
              intro he
              exact hnot (by simp [he])
            simp [raceStep, hne]
        | locked i =>
            rw [raceStep_locked_eq]
            by_cases hf : s.flags i
            · rw [if_pos hf]
              by_cases hs : s.logger.suffix = newS
              · rw [if_neg (by simpa using hs)]
              · rw [if_pos (by simpa using hs)]
            · rw [if_neg hf]
      have := ih hnl (raceStep newS s a)
      calc (raceRun newS s (a :: l)).flags t
        = (raceRun newS (raceStep newS s a) l).flags t := rfl
        _ = (raceStep newS s a).flags t := ih hnl (raceStep newS s a)
        _ = s.flags t := hstep

/-- C9: exactly one rotation per suffix transition under concurrent
`handle` calls at the boundary.  The schedule interleaves arbitrary actions
of other threads; thread `t` runs its unlocked pre-check once and later its
lock-protected critical section.  Starting from a stale cached suffix and a
zero rotation count, the whole interleaving performs exactly one
`rotate_handler()` execution. -/
theorem c9_rotation_exactly_once (oldS newS : String) (hne : oldS ≠ newS)
    (lg : LoggerState) (hlg : lg.suffix = oldS) (t : Nat)
    (l1 l2 l3 : List HAct) (hnot : HAct.check t ∉ l2) :
    (raceRun newS ⟨lg, 0, fun _ => false⟩
        (l1 ++ HAct.check t :: (l2 ++ HAct.locked t :: l3))).rotations
      = 1 := by
  have hsplit : raceRun newS ⟨lg, 0, fun _ => false⟩
      (l1 ++ HAct.check t :: (l2 ++ HAct.locked t :: l3))
      = raceRun newS
          (raceStep newS
            (raceRun newS
              (raceStep newS (raceRun newS ⟨lg, 0, fun _ => false⟩ l1)
                (HAct.check t))
              l2)
            (HAct.locked t))
          l3 := by
    unfold raceRun
    rw [List.foldl_append, List.foldl_cons, List.foldl_append,
      List.foldl_cons]
  rw [hsplit]
  have hinv1 : RaceInv oldS newS (raceRun newS ⟨lg, 0, fun _ => false⟩ l1) :=
    raceRun_inv oldS newS l1 _ (Or.inl ⟨rfl, hlg⟩)
  set s1 := raceRun newS ⟨lg, 0, fun _ => false⟩ l1 with hs1
  rcases hinv1 with ⟨h0, hsuf⟩ | ⟨h1, hsuf⟩
  · -- nothing rotated yet when thread t runs its pre-check: it passes
    have hflag : (raceStep newS s1 (HAct.check t)).flags t = true := by
      simp [raceStep, hsuf, hne]
    have hinv2 : RaceInv oldS newS (raceStep newS s1 (HAct.check t)) :=
      raceStep_inv oldS newS s1 (HAct.check t) (Or.inl ⟨h0, hsuf⟩)
    set s2 := raceStep newS s1 (HAct.check t) with hs2
    have hinv3 : RaceInv oldS newS (raceRun newS s2 l2) :=
      raceRun_inv oldS newS l2 s2 hinv2
    have hflag3 : (raceRun newS s2 l2).flags t = true := by
      rw [raceRun_flags newS t l2 hnot s2, hflag]
    set s3 := raceRun newS s2 l2 with hs3
    rcases hinv3 with ⟨g0, gsuf⟩ | ⟨g1, gsuf⟩
    · -- still stale at the critical section: the re-check passes, rotate
      have hstep : (raceStep newS s3 (HAct.locked t)).rotations = 1
          ∧ (raceStep newS s3 (HAct.locked t)).logger.suffix = newS := by
        rw [raceStep_locked_eq, hflag3, if_pos rfl]
        rw [if_pos (by simp [gsuf, hne])]
        exact ⟨by simp [g0], by simp [doRotate_suffix]⟩
      exact raceRun_stable newS l3 _ hstep.1 hstep.2
    · -- another thread already rotated: the re-check fails, no rotation
      have hstep : (raceStep newS s3 (HAct.locked t)).rotations = 1
          ∧ (raceStep newS s3 (HAct.locked t)).logger.suffix = newS := by
        obtain ⟨g1s, g2s⟩ := raceStep_stable newS s3 (HAct.locked t) g1 gsuf
        exact ⟨g1s, g2s⟩
      exact raceRun_stable newS l3 _ hstep.1 hstep.2
  · -- a rotation already happened inside l1: stability carries it through
    have hc : (raceStep newS s1 (HAct.check t)).rotations = 1
        ∧ (raceStep newS s1 (HAct.check t)).logger.suffix = newS :=
      raceStep_stable newS s1 (HAct.check t) h1 hsuf
    have hrun : (raceRun newS (raceStep newS s1 (HAct.check t)) l2).rotations = 1 :=
      raceRun_stable newS l2 _ hc.1 hc.2
    have hsuf2 : (raceRun newS (raceStep newS s1 (HAct.check t)) l2).logger.suffix = newS := by
      have hinv2 : RaceInv oldS newS (raceRun newS (raceStep newS s1 (HAct.check t)) l2) :=
        raceRun_inv oldS newS l2 _ (Or.inr ⟨hc.1, hc.2⟩)
      rcases hinv2 with ⟨g0, gsuf⟩ | ⟨g1, gsuf⟩
      · rw [hrun] at g0
        exact absurd g0 one_ne_zero
      · exact gsuf
    obtain ⟨g1s, g2s⟩ := raceStep_stable newS _ (HAct.locked t) hrun hsuf2
    exact raceRun_stable newS l3 _ g1s g2s

/-- Witness for C9: two threads both see the stale suffix at the boundary;
thread 1 rotates inside its critical section, thread 0's re-check then
skips — one rotation in total. -/
theorem c9_rotation_exactly_once_witness :
    (raceRun "2024-01-02"
        ⟨⟨"app.log", "%Y-%m-%d", "2024-01-01", ⟨none, none, none, none⟩,
            [], []⟩, 0, fun _ => false⟩
        ([] ++ HAct.check 0 :: ([HAct.check 1, HAct.locked 1]
          ++ HAct.locked 0 :: []))).rotations = 1 :=
  c9_rotation_exactly_once "2024-01-01" "2024-01-02" (by decide)
    ⟨"app.log", "%Y-%m-%d", "2024-01-01", ⟨none, none, none, none⟩, [], []⟩
    rfl 0 [] [HAct.check 1, HAct.locked 1] [] (by decide)

end Logutil
